import Mathlib

/-!
Shallow embedding of the Reading-State & Content-Delivery Engine of the
Comik / ManhwaVerse repository, together with proofs of the specified
properties.

The embedded functions follow the JavaScript source:
* chapter navigation — `handleReaderPage` / `showBasicChapterInfo`
  (src/assets/js/main.js, lines 1249–1324);
* progressive pagination — `setupProgressiveScroll` / `loadMoreContent`
  (src/assets/js/main.js, lines 444–499);
* reading history and bookmarks — `StorageManager.addToHistory` /
  `StorageManager.addBookmark` (src/unnamed/part_001);
* the localStorage boundary — `StorageManager.get` / `StorageManager.set` /
  `importData` / `updatePreferences` (src/unnamed/part_001);
* image scheduling — `displayChapterImages` / `preloadRemainingImages`
  (src/assets/js/main.js, lines 1379–1467);
* the homepage quick-load / full-load display logic — `loadHomepageContent`
  (src/assets/js/main.js, lines 276–323).
-/

namespace Comik

/-! ## Chapter navigation resolver

`handleReaderPage` reads `current_manga_chapters`, locates the current
chapter by URL with `findIndex`, and computes
`prevChapter = currentIndex < chapterList.length - 1 ? chapterList[currentIndex + 1] : null` and
`nextChapter = currentIndex > 0 ? chapterList[currentIndex - 1] : null`.
When the list is empty or the URL is not found it falls back to
`showBasicChapterInfo`, which passes `null, null` to the navigation update. -/

/-- A chapter reference as stored in `current_manga_chapters`. -/
structure ChapterRef where
  title : String
  url : String
deriving DecidableEq, Repr

/-- Result of the navigation resolution in `handleReaderPage`. -/
structure NavResult where
  found : Bool
  previous : Option ChapterRef
  next : Option ChapterRef
deriving DecidableEq, Repr

/-- The chapter-navigation block of `handleReaderPage`:
`findIndex(chapter => chapter.url === chapterUrl)` on the stored list, then
index arithmetic on a newest-first list; empty list and not-found both fall
back to `showBasicChapterInfo` (no navigation targets). -/
def resolveChapterNav (chapterList : List ChapterRef) (chapterUrl : String) :
    NavResult :=
  if 0 < chapterList.length then
    match chapterList.findIdx? (fun chapter => chapter.url == chapterUrl) with
    | some currentIndex =>
      { found := true
        previous :=
          if currentIndex < chapterList.length - 1 then
            chapterList.get? (currentIndex + 1)
          else none
        next :=
          if 0 < currentIndex then chapterList.get? (currentIndex - 1)
          else none }
    | none => { found := false, previous := none, next := none }
  else { found := false, previous := none, next := none }

/-! Characterisation of `findIndex` (`List.findIdx?`), used both by the
resolver and by the storage manager. -/

theorem findIdx?_eq_some_of_first {α : Type} (p : α → Bool) :
    ∀ (l : List α) (i : Nat) (ch : α),
      l.get? i = some ch → p ch = true →
      (∀ j chj, j < i → l.get? j = some chj → p chj = false) →
      l.findIdx? p = some i := by
  intro l
  induction l with
  | nil => intro i ch h; simp at h
  | cons a t ih =>
    intro i ch hget hp hfirst
    cases i with
    | zero =>
      simp at hget
      subst hget
      simp [List.findIdx?_cons, hp]
    | succ n =>
      have ha : p a = false := hfirst 0 a (Nat.succ_pos n) rfl
      simp only [List.get?] at hget
      have := ih n ch hget hp (fun j chj hj hg =>
        hfirst (j + 1) chj (Nat.succ_lt_succ hj) hg)
      simp [List.findIdx?_cons, ha, this]

theorem findIdx?_eq_none_of_absent {α : Type} (p : α → Bool) :
    ∀ (l : List α), (∀ ch ∈ l, p ch = false) →
      l.findIdx? p = none := by
  intro l
  induction l with
  | nil => intro _; rfl
  | cons a t ih =>
    intro h
    have ha : p a = false := h a (List.mem_cons_self a t)
    have ht := ih (fun ch hch => h ch (List.mem_cons_of_mem a hch))
    simp [List.findIdx?_cons, ha, ht]

/-- **C1** — Chapter navigation resolution: for a chapter list of length N
(newest-first) with the current URL first matching at position i, the
resolver returns `previous = list[i+1]` when `i+1 < N` and null otherwise
(`l.get? (i+1)` is exactly that), and `next = list[i-1]` when `i > 0` and
null otherwise; for a URL absent from the list — including the empty list —
it returns `found = false` with both neighbours null. -/
theorem resolveChapterNav_correct (chapterList : List ChapterRef)
    (chapterUrl : String) :
    (∀ i ch, chapterList.get? i = some ch → ch.url = chapterUrl →
      (∀ j chj, j < i → chapterList.get? j = some chj → chj.url ≠ chapterUrl) →
      (resolveChapterNav chapterList chapterUrl).found = true ∧
      (resolveChapterNav chapterList chapterUrl).previous =
        chapterList.get? (i + 1) ∧
      (resolveChapterNav chapterList chapterUrl).next =
        (if 0 < i then chapterList.get? (i - 1) else none)) ∧
    ((∀ ch ∈ chapterList, ch.url ≠ chapterUrl) →
      resolveChapterNav chapterList chapterUrl =
        { found := false, previous := none, next := none }) := by
  constructor
  · intro i ch hget hurl hfirst
    have hlen : i < chapterList.length := by
      by_contra hge
      rw [List.get?_eq_none.2 (Nat.le_of_not_lt hge)] at hget
      exact Option.noConfusion hget
    have hfind : chapterList.findIdx?
        (fun chapter => chapter.url == chapterUrl) = some i := by
      apply findIdx?_eq_some_of_first _ _ _ ch hget
      · exact beq_iff_eq.2 hurl
      · intro j chj hj hg
        exact beq_eq_false_iff_ne.2 (hfirst j chj hj hg)
    have hpos : 0 < chapterList.length := Nat.lt_of_le_of_lt (Nat.zero_le i) hlen
    unfold resolveChapterNav
    simp only [if_pos hpos, hfind]
    refine ⟨trivial, ?_, trivial⟩
    by_cases hcase : i < chapterList.length - 1
    · simp [hcase]
    · have : chapterList.length ≤ i + 1 := by omega
      rw [if_neg hcase]
      exact (List.get?_eq_none.2 this).symm
  · intro habs
    have hfind : chapterList.findIdx?
        (fun chapter => chapter.url == chapterUrl) = none := by
      apply findIdx?_eq_none_of_absent
      intro ch hch
      exact beq_eq_false_iff_ne.2 (habs ch hch)
    unfold resolveChapterNav
    by_cases hpos : 0 < chapterList.length
    · rw [if_pos hpos, hfind]
    · rw [if_neg hpos]

/-- Concrete instance of `resolveChapterNav_correct`: a three-chapter
newest-first list with the current URL at index 1 yields the older chapter
as previous and the newer one as next; an absent URL yields the fallback. -/
theorem resolveChapterNav_correct_witness :
    (resolveChapterNav
        [⟨"Ch 3", "u3"⟩, ⟨"Ch 2", "u2"⟩, ⟨"Ch 1", "u1"⟩] "u2").found = true ∧
    (resolveChapterNav
        [⟨"Ch 3", "u3"⟩, ⟨"Ch 2", "u2"⟩, ⟨"Ch 1", "u1"⟩] "u2").previous =
      some ⟨"Ch 1", "u1"⟩ ∧
    (resolveChapterNav
        [⟨"Ch 3", "u3"⟩, ⟨"Ch 2", "u2"⟩, ⟨"Ch 1", "u1"⟩] "u2").next =
      some ⟨"Ch 3", "u3"⟩ ∧
    resolveChapterNav [⟨"Ch 3", "u3"⟩, ⟨"Ch 2", "u2"⟩, ⟨"Ch 1", "u1"⟩] "zz" =
      { found := false, previous := none, next := none } := by
  have h := resolveChapterNav_correct
    [⟨"Ch 3", "u3"⟩, ⟨"Ch 2", "u2"⟩, ⟨"Ch 1", "u1"⟩] "u2"
  have h1 := h.1 1 ⟨"Ch 2", "u2"⟩ rfl rfl (by
    intro j chj hj hg
    have hj0 : j = 0 := by omega
    subst hj0
    simp only [List.get?] at hg
    cases hg
    decide)
  have h2 := (resolveChapterNav_correct
    [⟨"Ch 3", "u3"⟩, ⟨"Ch 2", "u2"⟩, ⟨"Ch 1", "u1"⟩] "zz").2 (by decide)
  exact ⟨h1.1, by simpa using h1.2.1, by simpa using h1.2.2, h2⟩

/-! ## Pagination cursor

`setupProgressiveScroll(container, startOffset)` keeps mutable state
`isLoading = false`, `hasMoreData = true`, `currentOffset = startOffset`.
`loadMoreContent` returns at once when `isLoading || !hasMoreData`;
otherwise it slices `allData.slice(currentOffset, currentOffset + 20)`,
appends the batch, advances `currentOffset` by the number of items actually
returned, recomputes `hasMoreData = currentOffset < allData.length`, and for
an empty slice sets `hasMoreData = false`; `isLoading` is reset in the
`finally` block, so a completed call always leaves it `false`. -/

/-- Mutable cursor state of `setupProgressiveScroll`. -/
structure Cursor where
  offset : Nat
  hasMore : Bool
  isLoading : Bool
deriving DecidableEq, Repr

/-- One call of `loadMoreContent` over the resident `allData` list:
returns the cursor after the call together with the batch of items it
appended to the grid. -/
def loadMoreContent {α : Type} (allData : List α) (c : Cursor) :
    Cursor × List α :=
  if c.isLoading || !c.hasMore then (c, [])
  else
    let nextBatch := (allData.drop c.offset).take 20
    if 0 < nextBatch.length then
      let offset' := c.offset + nextBatch.length
      ({ offset := offset', hasMore := decide (offset' < allData.length),
         isLoading := false }, nextBatch)
    else
      ({ c with hasMore := false }, [])

/-- Repeated `loadMoreContent` calls, driven (fuel-bounded) while
`hasMore` holds, collecting every delivered batch in order. -/
def drainPages {α : Type} (allData : List α) : Nat → Cursor → List α
  | 0, _ => []
  | fuel + 1, c =>
    if c.hasMore then
      let step := loadMoreContent allData c
      step.2 ++ drainPages allData fuel step.1
    else []

theorem drainPages_of_not_hasMore {α : Type} (l : List α) (fuel : Nat)
    (c : Cursor) (h : c.hasMore = false) : drainPages l fuel c = [] := by
  cases fuel with
  | zero => rfl
  | succ n => simp [drainPages, h]

theorem loadMoreContent_active {α : Type} (l : List α) (start : Nat) :
    loadMoreContent l { offset := start, hasMore := true, isLoading := false } =
      if 0 < ((l.drop start).take 20).length then
        ({ offset := start + ((l.drop start).take 20).length,
           hasMore := decide (start + ((l.drop start).take 20).length < l.length),
           isLoading := false }, (l.drop start).take 20)
      else ({ offset := start, hasMore := false, isLoading := false }, []) := by
  simp [loadMoreContent]

theorem drainPages_eq_drop {α : Type} (allData : List α) :
    ∀ (fuel start : Nat), allData.length - start < fuel →
      drainPages allData fuel
        { offset := start, hasMore := true, isLoading := false } =
      allData.drop start := by
  intro fuel
  induction fuel with
  | zero => intro start h; omega
  | succ n ih =>
    intro start hfuel
    have hstep : drainPages allData (n + 1)
        { offset := start, hasMore := true, isLoading := false } =
        (loadMoreContent allData
          { offset := start, hasMore := true, isLoading := false }).2 ++
        drainPages allData n
          (loadMoreContent allData
            { offset := start, hasMore := true, isLoading := false }).1 := by
      simp [drainPages]
    rw [hstep, loadMoreContent_active]
    set k := ((allData.drop start).take 20).length with hkdef
    have hkmin : k = min 20 (allData.length - start) := by
      simp [hkdef, List.length_take, List.length_drop]
    by_cases hpos : 0 < k
    · rw [if_pos hpos]
      dsimp only
      have hoff : start + k ≤ allData.length := by omega
      by_cases hmore : start + k < allData.length
      · rw [(by simp [hmore] : decide (start + k < allData.length) = true)]
        rw [ih (start + k) (by omega)]
        have hk20 : k = 20 := by omega
        have hdd : allData.drop (start + k) = (allData.drop start).drop 20 := by
          rw [List.drop_drop, hk20, Nat.add_comm]
        rw [hdd, List.take_append_drop]
      · rw [(by simp [hmore] : decide (start + k < allData.length) = false)]
        rw [drainPages_of_not_hasMore allData n _ rfl, List.append_nil]
        have hlen20 : (allData.drop start).length ≤ 20 := by
          simp only [List.length_drop]
          omega
        rw [List.take_of_length_le hlen20]
    · rw [if_neg hpos]
      dsimp only
      rw [drainPages_of_not_hasMore allData n _ rfl, List.append_nil]
      have : allData.length ≤ start := by omega
      rw [List.drop_eq_nil_of_le this]

/-- **C3** — Pagination exactly-once delivery: a `loadMoreContent` call never
advances the offset past the source-list length (and the offset only
advances); an empty next slice sets `hasMore = false`, delivers no items and
is not an error; and draining the cursor from any starting offset until
`hasMore` becomes false delivers exactly the source-list suffix from that
offset, in order, with no gaps and no repeats. -/
theorem pagination_exactly_once {α : Type} (allData : List α) (c : Cursor)
    (start fuel : Nat) :
    (loadMoreContent allData c).1.offset ≤ max c.offset allData.length ∧
    c.offset ≤ (loadMoreContent allData c).1.offset ∧
    (c.isLoading = false → c.hasMore = true → allData.drop c.offset = [] →
      loadMoreContent allData c = ({ c with hasMore := false }, [])) ∧
    (allData.length - start < fuel →
      drainPages allData fuel
        { offset := start, hasMore := true, isLoading := false } =
      allData.drop start) := by
  rcases c with ⟨off, hm, il⟩
  have hklen : ((allData.drop off).take 20).length =
      min 20 (allData.length - off) := by
    simp [List.length_take, List.length_drop]
  refine ⟨?_, ?_, ?_, fun h => drainPages_eq_drop allData fuel start h⟩
  · match il, hm with
    | true, hm => simp [loadMoreContent]
    | false, false => simp [loadMoreContent]
    | false, true =>
      rw [loadMoreContent_active]
      by_cases hpos : 0 < ((allData.drop off).take 20).length
      · rw [if_pos hpos]
        dsimp only
        omega
      · rw [if_neg hpos]
        dsimp only
        omega
  · match il, hm with
    | true, hm => simp [loadMoreContent]
    | false, false => simp [loadMoreContent]
    | false, true =>
      rw [loadMoreContent_active]
      by_cases hpos : 0 < ((allData.drop off).take 20).length
      · rw [if_pos hpos]
        dsimp only
        omega
      · rw [if_neg hpos]
  · intro hil hhm hdrop
    dsimp only at hil hhm
    subst hil
    subst hhm
    rw [loadMoreContent_active,
      if_neg (by simp [hdrop] : ¬0 < ((allData.drop off).take 20).length)]

/-- Concrete instance of `pagination_exactly_once`: draining a 45-element
list from offset 5 delivers exactly its suffix, and a call at the end of the
list delivers nothing and clears `hasMore`. -/
theorem pagination_exactly_once_witness :
    drainPages (List.range 45) 46
        { offset := 5, hasMore := true, isLoading := false } =
      (List.range 45).drop 5 ∧
    loadMoreContent (List.range 45)
        { offset := 45, hasMore := true, isLoading := false } =
      ({ offset := 45, hasMore := false, isLoading := false }, []) := by
  constructor
  · exact (pagination_exactly_once (List.range 45)
      { offset := 45, hasMore := true, isLoading := false } 5 46).2.2.2
      (by decide)
  · exact (pagination_exactly_once (List.range 45)
      { offset := 45, hasMore := true, isLoading := false } 5 46).2.2.1
      rfl rfl (by decide)

/-- **C8** — Pagination single-flight guard: a `loadMoreContent` call made
while the cursor's `isLoading` flag is set, or after `hasMore` has become
false, is a no-op: it changes no cursor state, delivers no items, and
returns the same state. -/
theorem pagination_single_flight {α : Type} (allData : List α) (c : Cursor)
    (h : c.isLoading = true ∨ c.hasMore = false) :
    loadMoreContent allData c = (c, []) := by
  rcases h with h | h <;> simp [loadMoreContent, h]

/-- Concrete instance of `pagination_single_flight`: a call while
`isLoading` is set is a no-op, as is a call after `hasMore` is false. -/
theorem pagination_single_flight_witness :
    loadMoreContent [10, 20, 30]
        { offset := 0, hasMore := true, isLoading := true } =
      ({ offset := 0, hasMore := true, isLoading := true }, []) ∧
    loadMoreContent [10, 20, 30]
        { offset := 3, hasMore := false, isLoading := false } =
      ({ offset := 3, hasMore := false, isLoading := false }, []) :=
  ⟨pagination_single_flight [10, 20, 30]
      { offset := 0, hasMore := true, isLoading := true } (Or.inl rfl),
    pagination_single_flight [10, 20, 30]
      { offset := 3, hasMore := false, isLoading := false } (Or.inr rfl)⟩

/-! ## StorageManager: reading history and bookmarks

`StorageManager.addToHistory(mangaData, chapterData)` builds a history item
with composite id `mangaData.title + "_" + chapterData.title`, removes the
first existing entry with the same id (`findIndex` + `splice(i, 1)`),
unshifts the new item, and truncates with `splice(100)` when the length
exceeds 100. `readAt` is the write-time clock (`new Date().toISOString()`),
modelled here as a `Nat` passed explicitly.

`StorageManager.addBookmark(mangaData)` builds a bookmark with
`id = mangaData.title`, returns `false` when `findIndex` locates an
existing bookmark with that id, and otherwise unshifts the new bookmark
and returns it. -/

/-- The manga record fields read by the storage manager. -/
structure MangaData where
  title : String
  cover_image : Option String
  cover_url : Option String
  detail_url : String
  source : Option String
deriving DecidableEq, Repr

/-- The chapter record fields read by the storage manager. -/
structure ChapterData where
  title : String
  url : String
deriving DecidableEq, Repr

/-- A stored reading-history entry. -/
structure HistoryItem where
  id : String
  mangaTitle : String
  mangaCover : Option String
  mangaUrl : String
  chapterTitle : String
  chapterUrl : String
  readAt : Nat
  source : String
deriving DecidableEq, Repr

/-- The history item literal built inside `addToHistory`. -/
def mkHistoryItem (mangaData : MangaData) (chapterData : ChapterData)
    (now : Nat) : HistoryItem :=
  { id := mangaData.title ++ "_" ++ chapterData.title
    mangaTitle := mangaData.title
    mangaCover := mangaData.cover_image.orElse fun _ => mangaData.cover_url
    mangaUrl := mangaData.detail_url
    chapterTitle := chapterData.title
    chapterUrl := chapterData.url
    readAt := now
    source := mangaData.source.getD "AsuraScanz" }

/-- `StorageManager.addToHistory` at the history-list level: remove the
first entry with the same composite id, unshift the new item, truncate to
100 entries. -/
def addToHistory (history : List HistoryItem) (mangaData : MangaData)
    (chapterData : ChapterData) (now : Nat) : List HistoryItem :=
  let historyItem := mkHistoryItem mangaData chapterData now
  let history :=
    match history.findIdx? (fun item => item.id == historyItem.id) with
    | some existingIndex => history.eraseIdx existingIndex
    | none => history
  (historyItem :: history).take 100

/-- One `addToHistory` call together with the advance of the write-time
clock. -/
def historyStep (st : List HistoryItem × Nat) (call : MangaData × ChapterData) :
    List HistoryItem × Nat :=
  (addToHistory st.1 call.1 call.2 st.2, st.2 + 1)

/-- A run of `addToHistory` calls from the initialised store
(`history = []`), with the write-time clock advancing per call. -/
def runHistory (calls : List (MangaData × ChapterData)) : List HistoryItem :=
  (calls.foldl historyStep ([], 0)).1

/-- A stored bookmark. -/
structure Bookmark where
  id : String
  title : String
  cover : Option String
  detailUrl : String
  addedAt : Nat
  source : String
  lastReadChapter : Option String
  status : String
deriving DecidableEq, Repr

/-- The bookmark literal built inside `addBookmark`. -/
def mkBookmark (mangaData : MangaData) (now : Nat) : Bookmark :=
  { id := mangaData.title
    title := mangaData.title
    cover := mangaData.cover_image.orElse fun _ => mangaData.cover_url
    detailUrl := mangaData.detail_url
    addedAt := now
    source := mangaData.source.getD "AsuraScanz"
    lastReadChapter := none
    status := "reading" }

/-- `StorageManager.addBookmark` at the bookmark-list level: `none` stands
for the JavaScript return value `false` (already bookmarked). -/
def addBookmark (bookmarks : List Bookmark) (mangaData : MangaData)
    (now : Nat) : Option Bookmark × List Bookmark :=
  let bookmark := mkBookmark mangaData now
  match bookmarks.findIdx? (fun item => item.id == bookmark.id) with
  | some _ => (none, bookmarks)
  | none => (some bookmark, bookmark :: bookmarks)

/-! Supporting lemmas for the history invariant. -/

/-- Removing the entry located by `findIndex` is removing the first
entry satisfying the predicate. -/
theorem eraseIdx_findIdx?_eq_eraseP {α : Type} (p : α → Bool) :
    ∀ l : List α,
      (match l.findIdx? p with
       | some i => l.eraseIdx i
       | none => l) = l.eraseP p := by
  intro l
  induction l with
  | nil => rfl
  | cons a t ih =>
    by_cases hpa : p a
    · simp [List.findIdx?_cons, hpa, List.eraseP_cons_of_pos hpa]
    · rw [List.eraseP_cons_of_neg hpa, List.findIdx?_cons, if_neg hpa,
        List.findIdx?_succ]
      cases hft : t.findIdx? p with
      | none =>
        simp only [hft] at ih
        rw [Option.map_none', ← ih]
      | some j =>
        simp only [hft] at ih
        rw [Option.map_some']
        show (a :: t).eraseIdx (j + 1) = a :: t.eraseP p
        rw [List.eraseIdx_cons_succ, ih]

/-- After erasing the first entry with a given id from a duplicate-free
list, no entry with that id remains. -/
theorem eraseP_id_eliminated (v : String) :
    ∀ l : List HistoryItem, (l.map (fun x => x.id)).Nodup →
      ∀ y ∈ l.eraseP (fun x => x.id == v), y.id ≠ v := by
  intro l
  induction l with
  | nil => intro _ y hy; simp [List.eraseP] at hy
  | cons a t ih =>
    intro hnd y hy
    have hnd' : a.id ∉ t.map (fun x => x.id) ∧
        (t.map (fun x => x.id)).Nodup := by
      simpa [List.nodup_cons] using hnd
    by_cases hpa : a.id = v
    · have herase : (a :: t).eraseP (fun x => x.id == v) = t :=
        List.eraseP_cons_of_pos (beq_iff_eq.2 hpa)
      rw [herase] at hy
      intro hcontra
      apply hnd'.1
      rw [hpa, ← hcontra]
      exact List.mem_map_of_mem _ hy
    · have herase : (a :: t).eraseP (fun x => x.id == v) =
          a :: t.eraseP (fun x => x.id == v) :=
        List.eraseP_cons_of_neg (by simpa using hpa)
      rw [herase] at hy
      rcases List.mem_cons.1 hy with rfl | hy'
      · exact hpa
      · exact ih hnd'.2 y hy'

/-- The invariant maintained by the history store: duplicate-free ids,
capped at 100 entries, ordered most-recent-first by `readAt`, and every
stored timestamp below the current clock. -/
def HistoryInv (t : Nat) (h : List HistoryItem) : Prop :=
  (h.map (fun x => x.id)).Nodup ∧ h.length ≤ 100 ∧
  h.Pairwise (fun a b => b.readAt < a.readAt) ∧ ∀ x ∈ h, x.readAt < t

theorem addToHistory_eq_eraseP (h : List HistoryItem) (m : MangaData)
    (cd : ChapterData) (t : Nat) :
    addToHistory h m cd t =
      (mkHistoryItem m cd t ::
        h.eraseP (fun item => item.id == (mkHistoryItem m cd t).id)).take 100 := by
  unfold addToHistory
  rw [← eraseIdx_findIdx?_eq_eraseP]

theorem addToHistory_preserves (h : List HistoryItem) (m : MangaData)
    (cd : ChapterData) (t : Nat) (inv : HistoryInv t h) :
    HistoryInv (t + 1) (addToHistory h m cd t) := by
  obtain ⟨hnd, hlen, hsort, hbound⟩ := inv
  rw [addToHistory_eq_eraseP]
  set item := mkHistoryItem m cd t with hitem
  have hread : item.readAt = t := rfl
  have hsubP : List.Sublist (h.eraseP (fun i => i.id == item.id)) h :=
    List.eraseP_sublist h
  have hsubT : List.Sublist
      ((item :: h.eraseP (fun i => i.id == item.id)).take 100)
      (item :: h.eraseP (fun i => i.id == item.id)) :=
    List.take_sublist _ _
  refine ⟨?_, ?_, ?_, ?_⟩
  · apply List.Nodup.sublist (hsubT.map (fun x => x.id))
    rw [List.map_cons, List.nodup_cons]
    constructor
    · intro hmem
      rcases List.mem_map.1 hmem with ⟨y, hy, hid⟩
      exact eraseP_id_eliminated item.id h hnd y hy hid
    · exact hnd.sublist (hsubP.map (fun x => x.id))
  · rw [List.length_take]
    omega
  · apply List.Pairwise.sublist hsubT
    rw [List.pairwise_cons]
    constructor
    · intro b hb
      rw [hread]
      exact hbound b (hsubP.subset hb)
    · exact hsort.sublist hsubP
  · intro x hx
    rcases List.mem_cons.1 (hsubT.subset hx) with rfl | hx'
    · omega
    · have := hbound x (hsubP.subset hx')
      omega

theorem foldl_historyStep_inv :
    ∀ (calls : List (MangaData × ChapterData)) (st : List HistoryItem × Nat),
      HistoryInv st.2 st.1 →
      HistoryInv (calls.foldl historyStep st).2 (calls.foldl historyStep st).1 := by
  intro calls
  induction calls with
  | nil => intro st h; exact h
  | cons c rest ih =>
    intro st h
    exact ih (historyStep st c) (addToHistory_preserves st.1 c.1 c.2 st.2 h)

/-- **C2** — History invariant: after any sequence of `addToHistory` calls
from the initialised store, the stored history has duplicate-free composite
ids, at most 100 entries, and is ordered most-recent-first (strictly
descending `readAt`); moreover each call removes the first existing entry
with the same composite id, prepends the new item, and truncates to 100. -/
theorem history_invariant (calls : List (MangaData × ChapterData)) :
    ((runHistory calls).map (fun x => x.id)).Nodup ∧
    (runHistory calls).length ≤ 100 ∧
    (runHistory calls).Pairwise (fun a b => b.readAt < a.readAt) ∧
    ∀ (h : List HistoryItem) (m : MangaData) (cd : ChapterData) (t : Nat),
      addToHistory h m cd t =
        (mkHistoryItem m cd t ::
          h.eraseP (fun item => item.id == (mkHistoryItem m cd t).id)).take 100 := by
  have base : HistoryInv (0 : Nat) ([] : List HistoryItem) := by
    refine ⟨List.nodup_nil, by simp, List.Pairwise.nil, ?_⟩
    intro x hx
    simp at hx
  have h := foldl_historyStep_inv calls ([], 0) base
  exact ⟨h.1, h.2.1, h.2.2.1, addToHistory_eq_eraseP⟩

/-- **C4** — `addBookmark` idempotence: starting from a store with no
bookmark for the title, the first call returns the created bookmark and the
second call with the same title (any source, any clock) returns `false`
(`none`), leaves the bookmark list unchanged, and exactly one bookmark with
that id remains. -/
theorem addBookmark_idempotent (bookmarks : List Bookmark)
    (m m2 : MangaData) (t t2 : Nat) (htitle : m2.title = m.title)
    (hfresh : ∀ b ∈ bookmarks, b.id ≠ m.title) :
    (addBookmark bookmarks m t).1 = some (mkBookmark m t) ∧
    (addBookmark (addBookmark bookmarks m t).2 m2 t2).1 = none ∧
    (addBookmark (addBookmark bookmarks m t).2 m2 t2).2 =
      (addBookmark bookmarks m t).2 ∧
    ((addBookmark (addBookmark bookmarks m t).2 m2 t2).2.filter
      (fun b => b.id == m.title)).length = 1 := by
  have hid : (mkBookmark m t).id = m.title := rfl
  have hnone : bookmarks.findIdx?
      (fun item => item.id == (mkBookmark m t).id) = none := by
    apply findIdx?_eq_none_of_absent
    intro b hb
    exact beq_eq_false_iff_ne.2 (hfresh b hb)
  have hfirst : addBookmark bookmarks m t =
      (some (mkBookmark m t), mkBookmark m t :: bookmarks) := by
    unfold addBookmark
    dsimp only
    rw [hnone]
  have hid2 : (mkBookmark m2 t2).id = m.title := htitle
  have hfind2 : (mkBookmark m t :: bookmarks).findIdx?
      (fun item => item.id == (mkBookmark m2 t2).id) = some 0 := by
    rw [List.findIdx?_cons, if_pos]
    rw [hid2, hid]
    exact beq_self_eq_true _
  have hsecond : addBookmark (mkBookmark m t :: bookmarks) m2 t2 =
      (none, mkBookmark m t :: bookmarks) := by
    unfold addBookmark
    dsimp only
    rw [hfind2]
  rw [hfirst]
  dsimp only
  rw [hsecond]
  refine ⟨rfl, rfl, rfl, ?_⟩
  rw [List.filter_cons_of_pos (by rw [hid]; exact beq_self_eq_true _),
    List.filter_eq_nil_iff.2 (fun b hb => by
      simp only [Bool.not_eq_true, beq_eq_false_iff_ne]
      exact hfresh b hb)]
  rfl

/-- Concrete instance of `addBookmark_idempotent`: adding "Solo Leveling"
from source Alpha, then re-adding it from source Beta, leaves one bookmark
and reports the duplicate. -/
theorem addBookmark_idempotent_witness :
    (addBookmark [mkBookmark ⟨"Other", none, none, "/o", none⟩ 0]
        ⟨"Solo Leveling", none, none, "/sl", some "Alpha"⟩ 1).1 =
      some (mkBookmark ⟨"Solo Leveling", none, none, "/sl", some "Alpha"⟩ 1) ∧
    (addBookmark
        (addBookmark [mkBookmark ⟨"Other", none, none, "/o", none⟩ 0]
          ⟨"Solo Leveling", none, none, "/sl", some "Alpha"⟩ 1).2
        ⟨"Solo Leveling", none, none, "/sl2", some "Beta"⟩ 2).1 = none ∧
    (addBookmark
        (addBookmark [mkBookmark ⟨"Other", none, none, "/o", none⟩ 0]
          ⟨"Solo Leveling", none, none, "/sl", some "Alpha"⟩ 1).2
        ⟨"Solo Leveling", none, none, "/sl2", some "Beta"⟩ 2).2 =
      (addBookmark [mkBookmark ⟨"Other", none, none, "/o", none⟩ 0]
        ⟨"Solo Leveling", none, none, "/sl", some "Alpha"⟩ 1).2 ∧
    ((addBookmark
        (addBookmark [mkBookmark ⟨"Other", none, none, "/o", none⟩ 0]
          ⟨"Solo Leveling", none, none, "/sl", some "Alpha"⟩ 1).2
        ⟨"Solo Leveling", none, none, "/sl2", some "Beta"⟩ 2).2.filter
      (fun b => b.id == "Solo Leveling")).length = 1 :=
  addBookmark_idempotent [mkBookmark ⟨"Other", none, none, "/o", none⟩ 0]
    ⟨"Solo Leveling", none, none, "/sl", some "Alpha"⟩
    ⟨"Solo Leveling", none, none, "/sl2", some "Beta"⟩ 1 2 rfl (by decide)

/-! ## StorageManager: the localStorage boundary

`StorageManager.get(key)` is
`try { const item = localStorage.getItem(key); return item ? JSON.parse(item) : null } catch { return null }`;
`StorageManager.set(key, value)` is
`try { localStorage.setItem(key, JSON.stringify(value)); return true } catch { return false }`.
The failure modes of the primitives (storage access throwing, a stored
string that `JSON.parse` rejects, `JSON.stringify` throwing on a value,
`localStorage.setItem` throwing on quota) are made explicit in an
environment record; a call either returns (`JsResult.ok`) or throws
(`JsResult.thrown`). -/

/-- Result of a JavaScript call: a return value or a thrown exception. -/
inductive JsResult (α : Type) where
  | ok (a : α)
  | thrown (msg : String)
deriving DecidableEq, Repr

/-- A raw string persisted in localStorage viewed through JSON: `good v`
serialises the value `v`; `garbage` is a string `JSON.parse` rejects. -/
inductive Stored (V : Type) where
  | good (v : V)
  | garbage
deriving DecidableEq, Repr

/-- The browser environment a `StorageManager` call runs in. -/
structure LSEnv (V : Type) where
  items : String → Option (Stored V)
  getItemThrows : Bool
  setItemThrows : Bool
  stringifyFails : V → Bool

/-- `localStorage.getItem`. -/
def rawGetItem {V : Type} (env : LSEnv V) (key : String) :
    JsResult (Option (Stored V)) :=
  if env.getItemThrows then .thrown "SecurityError" else .ok (env.items key)

/-- `JSON.parse` applied to a stored string. -/
def jsonParse {V : Type} : Stored V → JsResult V
  | .good v => .ok v
  | .garbage => .thrown "SyntaxError"

/-- `JSON.stringify`. -/
def jsonStringify {V : Type} (env : LSEnv V) (v : V) : JsResult (Stored V) :=
  if env.stringifyFails v then .thrown "TypeError" else .ok (.good v)

/-- `localStorage.setItem`: atomic — when it throws, nothing was written. -/
def rawSetItem {V : Type} (env : LSEnv V) (key : String) (s : Stored V) :
    JsResult (LSEnv V) :=
  if env.setItemThrows then .thrown "QuotaExceededError"
  else .ok { env with items := fun k => if k = key then some s else env.items k }

/-- The body of `StorageManager.get` inside its `try`. -/
def getBody {V : Type} (env : LSEnv V) (key : String) : JsResult (Option V) :=
  match rawGetItem env key with
  | .thrown msg => .thrown msg
  | .ok none => .ok none
  | .ok (some s) =>
    match jsonParse s with
    | .thrown msg => .thrown msg
    | .ok v => .ok (some v)

/-- `StorageManager.get`: the `catch` logs and returns `null`. -/
def SMget {V : Type} (env : LSEnv V) (key : String) : JsResult (Option V) :=
  match getBody env key with
  | .ok v => .ok v
  | .thrown _ => .ok none

/-- The body of `StorageManager.set` inside its `try`. -/
def setBody {V : Type} (env : LSEnv V) (key : String) (v : V) :
    JsResult (Bool × LSEnv V) :=
  match jsonStringify env v with
  | .thrown msg => .thrown msg
  | .ok s =>
    match rawSetItem env key s with
    | .thrown msg => .thrown msg
    | .ok env2 => .ok (true, env2)

/-- `StorageManager.set`: the `catch` logs and returns `false`, leaving the
store as it was. -/
def SMset {V : Type} (env : LSEnv V) (key : String) (v : V) :
    JsResult Bool × LSEnv V :=
  match setBody env key v with
  | .ok (b, env2) => (.ok b, env2)
  | .thrown _ => (.ok false, env)

/-- The four keys of `StorageManager.keys`. -/
def keyReadingHistory : String := "manhwa_reading_history"

def keyBookmarks : String := "manhwa_bookmarks"

def keyReadingProgress : String := "manhwa_reading_progress"

def keyUserPreferences : String := "manhwa_user_preferences"

/-- An import bundle as consumed by `StorageManager.importData`; `none`
models an absent (or falsy) category, which `if (data.x)` skips. -/
structure ImportBundle (V : Type) where
  readingHistory : Option V
  bookmarks : Option V
  readingProgress : Option V
  userPreferences : Option V

/-- One `if (data.x) this.set(keys.x, data.x)` step of `importData`. -/
def importCategory {V : Type} (env : LSEnv V) (key : String) :
    Option V → LSEnv V
  | some v => (SMset env key v).2
  | none => env

/-- `StorageManager.importData`: best-effort sequential per-category
writes; the surrounding `try/catch` cannot fire for an object bundle
because `set` catches internally, so the call returns `true`. -/
def importData {V : Type} (env : LSEnv V) (d : ImportBundle V) :
    Bool × LSEnv V :=
  let env1 := importCategory env keyReadingHistory d.readingHistory
  let env2 := importCategory env1 keyBookmarks d.bookmarks
  let env3 := importCategory env2 keyReadingProgress d.readingProgress
  let env4 := importCategory env3 keyUserPreferences d.userPreferences
  (true, env4)

/-- `StorageManager.getPreferences`: `this.get(key) || {}`. -/
def getPreferences {W : Type} (env : LSEnv (List (String × W))) :
    List (String × W) :=
  match SMget env keyUserPreferences with
  | .ok (some preferences) => preferences
  | _ => []

/-- JavaScript object field lookup on an association-list object model. -/
def objLookup {W : Type} (o : List (String × W)) (k : String) : Option W :=
  (o.find? (fun p => p.1 == k)).map (fun p => p.2)

/-- The object spread `\x7b ...current, ...newPreferences \x7d`: keys of
`current` (overridden by `newPreferences` where present) followed by the
new keys of `newPreferences`. -/
def spreadMerge {W : Type} (a b : List (String × W)) : List (String × W) :=
  a.map (fun p =>
    match objLookup b p.1 with
    | some w => (p.1, w)
    | none => p) ++
  b.filter (fun p => (objLookup a p.1).isNone)

/-- `StorageManager.updatePreferences`: merge the partial update into the
current record, write it back, and return the merged record. -/
def updatePreferences {W : Type} (env : LSEnv (List (String × W)))
    (newPreferences : List (String × W)) :
    List (String × W) × LSEnv (List (String × W)) :=
  let current := getPreferences env
  let updated := spreadMerge current newPreferences
  (updated, (SMset env keyUserPreferences updated).2)

/-! Behaviour of `SMset` on the two outcome classes. -/

theorem SMset_ok {V : Type} (env : LSEnv V) (key : String) (v : V)
    (hser : env.stringifyFails v = false) (hquota : env.setItemThrows = false) :
    SMset env key v = (.ok true,
      { env with
        items := fun k => if k = key then some (.good v) else env.items k }) := by
  unfold SMset setBody jsonStringify rawSetItem
  rw [hser, hquota]
  rfl

theorem SMset_fail {V : Type} (env : LSEnv V) (key : String) (v : V)
    (h : env.stringifyFails v = true ∨ env.setItemThrows = true) :
    SMset env key v = (.ok false, env) := by
  unfold SMset setBody jsonStringify rawSetItem
  rcases h with h | h
  · rw [h]
    rfl
  · rw [h]
    by_cases hser : env.stringifyFails v
    · rw [hser]
      rfl
    · rw [Bool.not_eq_true] at hser
      rw [hser]
      rfl

/-- **C6** — Storage failures never escape: `StorageManager.get` and
`StorageManager.set` never throw across the API boundary: whenever the body
inside the `try` throws, `get` returns `null` and `set` returns `false`
with the store untouched; both always return an `ok` result, a failed read
(storage access throwing, or stored garbage that `JSON.parse` rejects)
returns `null`, and a failed write (`JSON.stringify` or quota throwing)
returns `false`; the entity-level `importData` built on them likewise
always returns its boolean result rather than raising. -/
theorem storage_failures_never_escape {V : Type} (env : LSEnv V)
    (key : String) (v : V) (d : ImportBundle V) :
    (∀ msg, getBody env key = .thrown msg → SMget env key = .ok none) ∧
    (∀ msg, setBody env key v = .thrown msg → SMset env key v = (.ok false, env)) ∧
    (∃ r : Option V, SMget env key = .ok r) ∧
    (∃ b : Bool, ∃ env2 : LSEnv V,
      SMset env key v = (.ok b, env2) ∧ (b = false → env2 = env)) ∧
    (env.getItemThrows = true ∨ env.items key = some .garbage →
      SMget env key = .ok none) ∧
    (env.stringifyFails v = true ∨ env.setItemThrows = true →
      SMset env key v = (.ok false, env)) ∧
    (importData env d).1 = true := by
  refine ⟨?_, ?_, ?_, ?_, ?_, SMset_fail env key v, rfl⟩
  · intro msg hthrow
    unfold SMget
    rw [hthrow]
  · intro msg hthrow
    unfold SMset
    rw [hthrow]
  · unfold SMget
    cases hb : getBody env key with
    | ok r => exact ⟨r, rfl⟩
    | thrown msg => exact ⟨none, rfl⟩
  · unfold SMset
    cases hb : setBody env key v with
    | ok p =>
      refine ⟨p.1, p.2, rfl, ?_⟩
      intro hfalse
      unfold setBody jsonStringify rawSetItem at hb
      by_cases hser : env.stringifyFails v
      · rw [hser] at hb
        simp at hb
      · rw [Bool.not_eq_true] at hser
        rw [hser] at hb
        by_cases hquota : env.setItemThrows
        · rw [hquota] at hb
          simp at hb
        · rw [Bool.not_eq_true] at hquota
          rw [hquota] at hb
          simp at hb
          rw [← hb] at hfalse
          simp at hfalse
    | thrown msg => exact ⟨false, env, rfl, fun _ => rfl⟩
  · intro hfail
    unfold SMget getBody rawGetItem
    rcases hfail with h | h
    · rw [h]
      rfl
    · by_cases hget : env.getItemThrows
      · rw [hget]
        rfl
      · rw [Bool.not_eq_true] at hget
        rw [hget, h]
        rfl

/-- Concrete instance of `storage_failures_never_escape`: with storage
access disabled and the quota exhausted, `get` returns `null` and `set`
returns `false` without modifying the store. -/
theorem storage_failures_never_escape_witness :
    SMget
      { items := fun _ => none, getItemThrows := true,
        setItemThrows := true, stringifyFails := fun _ => false }
      "manhwa_bookmarks" = .ok (none : Option Nat) ∧
    SMset
      { items := fun _ => none, getItemThrows := true,
        setItemThrows := true, stringifyFails := fun _ => false }
      "manhwa_bookmarks" (7 : Nat) =
      (.ok false,
        { items := fun _ => none, getItemThrows := true,
          setItemThrows := true, stringifyFails := fun _ => false }) :=
  ⟨((storage_failures_never_escape
      { items := fun _ => none, getItemThrows := true,
        setItemThrows := true, stringifyFails := fun _ => false }
      "manhwa_bookmarks" (7 : Nat)
      ⟨none, none, none, none⟩).2.2.2.2.1 (Or.inl rfl)),
    ((storage_failures_never_escape
      { items := fun _ => none, getItemThrows := true,
        setItemThrows := true, stringifyFails := fun _ => false }
      "manhwa_bookmarks" (7 : Nat)
      ⟨none, none, none, none⟩).2.2.2.2.2.1 (Or.inr rfl))⟩

/-! ## Import isolation (`StorageManager.importData`) -/

/-- A JSON-decoded storage payload, distinguished only as far as the
bundle claims need: the four well-shaped category payloads versus an
arbitrary other JSON value (wrong-shaped for every category, yet still
serialisable, as every `JSON.parse` output is). -/
inductive StoreVal where
  | histList (items : List HistoryItem)
  | bmList (items : List Bookmark)
  | progMap (entries : List (String × String))
  | prefObj (fields : List (String × String))
  | rawJson (text : String)
deriving DecidableEq, Repr

/-- A store holding well-shaped preferences, with no failing primitives:
every payload of `StoreVal` is JSON-serialisable. -/
def envC5 : LSEnv StoreVal :=
  { items := fun k =>
      if k = keyUserPreferences then
        some (.good (.prefObj [("theme", "dark")]))
      else none
    getItemThrows := false
    setItemThrows := false
    stringifyFails := fun _ => false }

/-- An import bundle with valid history and bookmarks payloads and a
corrupted (wrong-shaped but serialisable) preferences payload. -/
def bundleC5 : ImportBundle StoreVal :=
  { readingHistory := some (.histList [])
    bookmarks := some (.bmList [])
    readingProgress := none
    userPreferences := some (.rawJson "corrupted-preferences-payload") }

/-- **C5 counterexample** — `importData` validates nothing: a corrupted but
serialisable preferences payload is written as-is, so the stored
preferences do not stay at their pre-import value; the claim that a
corrupted preferences payload leaves preferences unchanged fails at this
input (history and bookmarks are intact, as claimed). -/
theorem import_isolation_counterexample :
    (importData envC5 bundleC5).2.items keyReadingHistory =
      some (.good (.histList [])) ∧
    (importData envC5 bundleC5).2.items keyBookmarks =
      some (.good (.bmList [])) ∧
    envC5.items keyUserPreferences =
      some (.good (.prefObj [("theme", "dark")])) ∧
    (importData envC5 bundleC5).2.items keyUserPreferences =
      some (.good (.rawJson "corrupted-preferences-payload")) ∧
    (importData envC5 bundleC5).2.items keyUserPreferences ≠
      envC5.items keyUserPreferences := by
  refine ⟨?_, ?_, ?_, ?_, ?_⟩ <;> decide

/-- **C5 amended** — Import isolation, as the code implements it: each
category is written independently, so valid history and bookmarks payloads
always land intact and a failing preferences write never poisons them; the
stored preferences stay at their pre-import value exactly when the
corrupted payload fails serialisation (or the write throws) — a corrupted
payload that still serialises is written as-is, because `importData`
performs no shape validation; keys outside the written categories are
untouched. -/
theorem import_isolation_amended {V : Type} (env : LSEnv V) (h b q : V)
    (hserh : env.stringifyFails h = false)
    (hserb : env.stringifyFails b = false)
    (hquota : env.setItemThrows = false) :
    (importData env ⟨some h, some b, none, some q⟩).1 = true ∧
    (importData env ⟨some h, some b, none, some q⟩).2.items keyReadingHistory =
      some (.good h) ∧
    (importData env ⟨some h, some b, none, some q⟩).2.items keyBookmarks =
      some (.good b) ∧
    (env.stringifyFails q = true →
      (importData env ⟨some h, some b, none, some q⟩).2.items keyUserPreferences =
        env.items keyUserPreferences) ∧
    (env.stringifyFails q = false →
      (importData env ⟨some h, some b, none, some q⟩).2.items keyUserPreferences =
        some (.good q)) ∧
    ∀ k, k ≠ keyReadingHistory → k ≠ keyBookmarks → k ≠ keyUserPreferences →
      (importData env ⟨some h, some b, none, some q⟩).2.items k = env.items k := by
  have h1 : SMset env keyReadingHistory h = (.ok true,
      { env with items := fun k =>
          if k = keyReadingHistory then some (.good h) else env.items k }) :=
    SMset_ok env keyReadingHistory h hserh hquota
  have h2 : SMset
      { env with items := fun k =>
          if k = keyReadingHistory then some (.good h) else env.items k }
      keyBookmarks b = (.ok true,
      { env with items := fun k =>
          if k = keyBookmarks then some (.good b)
          else if k = keyReadingHistory then some (.good h) else env.items k }) :=
    SMset_ok _ keyBookmarks b hserb hquota
  have henv2 : (importData env ⟨some h, some b, none, some q⟩).2 =
      (SMset
        { env with items := fun k =>
            if k = keyBookmarks then some (.good b)
            else if k = keyReadingHistory then some (.good h)
            else env.items k }
        keyUserPreferences q).2 := by
    unfold importData importCategory
    dsimp only
    rw [h1]
    dsimp only
    rw [h2]
  by_cases hq : env.stringifyFails q
  · have h4 : SMset
        { env with items := fun k =>
            if k = keyBookmarks then some (.good b)
            else if k = keyReadingHistory then some (.good h)
            else env.items k }
        keyUserPreferences q = (.ok false,
        { env with items := fun k =>
            if k = keyBookmarks then some (.good b)
            else if k = keyReadingHistory then some (.good h)
            else env.items k }) :=
      SMset_fail _ keyUserPreferences q (Or.inl hq)
    rw [henv2, h4] at *
    refine ⟨rfl, ?_, ?_, fun _ => ?_, fun hq2 => absurd hq2 (by simp [hq]), ?_⟩
    · show (if keyReadingHistory = keyBookmarks then some (Stored.good b)
        else if keyReadingHistory = keyReadingHistory then some (.good h)
        else env.items keyReadingHistory) = some (.good h)
      rw [if_neg (by decide), if_pos rfl]
    · show (if keyBookmarks = keyBookmarks then some (Stored.good b)
        else if keyBookmarks = keyReadingHistory then some (.good h)
        else env.items keyBookmarks) = some (.good b)
      rw [if_pos rfl]
    · show (if keyUserPreferences = keyBookmarks then some (Stored.good b)
        else if keyUserPreferences = keyReadingHistory then some (.good h)
        else env.items keyUserPreferences) = env.items keyUserPreferences
      rw [if_neg (by decide), if_neg (by decide)]
    · intro k hk1 hk2 _
      show (if k = keyBookmarks then some (Stored.good b)
        else if k = keyReadingHistory then some (.good h)
        else env.items k) = env.items k
      rw [if_neg hk2, if_neg hk1]
  · rw [Bool.not_eq_true] at hq
    have h4 : SMset
        { env with items := fun k =>
            if k = keyBookmarks then some (.good b)
            else if k = keyReadingHistory then some (.good h)
            else env.items k }
        keyUserPreferences q = (.ok true,
        { env with items := fun k =>
            if k = keyUserPreferences then some (.good q)
            else if k = keyBookmarks then some (.good b)
            else if k = keyReadingHistory then some (.good h)
            else env.items k }) :=
      SMset_ok _ keyUserPreferences q hq hquota
    rw [henv2, h4] at *
    refine ⟨rfl, ?_, ?_, fun hq2 => absurd hq2 (by simp [hq]), fun _ => ?_, ?_⟩
    · show (if keyReadingHistory = keyUserPreferences then some (Stored.good q)
        else if keyReadingHistory = keyBookmarks then some (.good b)
        else if keyReadingHistory = keyReadingHistory then some (.good h)
        else env.items keyReadingHistory) = some (.good h)
      rw [if_neg (by decide), if_neg (by decide), if_pos rfl]
    · show (if keyBookmarks = keyUserPreferences then some (Stored.good q)
        else if keyBookmarks = keyBookmarks then some (.good b)
        else if keyBookmarks = keyReadingHistory then some (.good h)
        else env.items keyBookmarks) = some (.good b)
      rw [if_neg (by decide), if_pos rfl]
    · show (if keyUserPreferences = keyUserPreferences then some (Stored.good q)
        else if keyUserPreferences = keyBookmarks then some (.good b)
        else if keyUserPreferences = keyReadingHistory then some (.good h)
        else env.items keyUserPreferences) = some (.good q)
      rw [if_pos rfl]
    · intro k hk1 hk2 hk3
      show (if k = keyUserPreferences then some (Stored.good q)
        else if k = keyBookmarks then some (.good b)
        else if k = keyReadingHistory then some (.good h)
        else env.items k) = env.items k
      rw [if_neg hk3, if_neg hk2, if_neg hk1]

/-- Concrete instance of `import_isolation_amended`: over `StoreVal`
payloads (all serialisable), valid history and bookmarks land intact and
the serialisable corrupted preferences payload is written as-is. -/
theorem import_isolation_amended_witness :
    (importData envC5 bundleC5).1 = true ∧
    (importData envC5 bundleC5).2.items keyReadingHistory =
      some (.good (.histList [])) ∧
    (importData envC5 bundleC5).2.items keyBookmarks =
      some (.good (.bmList [])) ∧
    (importData envC5 bundleC5).2.items keyUserPreferences =
      some (.good (.rawJson "corrupted-preferences-payload")) := by
  have h := import_isolation_amended envC5 (.histList []) (.bmList [])
    (.rawJson "corrupted-preferences-payload") rfl rfl rfl
  exact ⟨h.1, h.2.1, h.2.2.1, h.2.2.2.2.1 rfl⟩

/-! ## Preferences merge (`StorageManager.updatePreferences`) -/

theorem objLookup_map_merge {W : Type} (b : List (String × W)) :
    ∀ (a : List (String × W)) (k : String),
      objLookup (a.map (fun p =>
        match objLookup b p.1 with
        | some w => (p.1, w)
        | none => p)) k =
      (match objLookup a k with
       | none => none
       | some w =>
         match objLookup b k with
         | some wb => some wb
         | none => some w) := by
  intro a
  induction a with
  | nil => intro k; rfl
  | cons p a' ih =>
    intro k
    by_cases hk : p.1 = k
    · cases hb : objLookup b p.1 with
      | some w =>
        unfold objLookup at *
        simp only [List.map_cons, hb]
        rw [List.find?_cons_of_pos _ (by simpa using hk),
          List.find?_cons_of_pos _ (by simpa using hk)]
        rw [← hk, hb]
        rfl
      | none =>
        unfold objLookup at *
        simp only [List.map_cons, hb]
        rw [List.find?_cons_of_pos _ (by simpa using hk),
          List.find?_cons_of_pos _ (by simpa using hk)]
        rw [← hk, hb]
        rfl
    · cases hb : objLookup b p.1 with
      | some w =>
        unfold objLookup at *
        simp only [List.map_cons, hb]
        rw [List.find?_cons_of_neg _ (by simpa using hk),
          List.find?_cons_of_neg _ (by simpa using hk)]
        exact ih k
      | none =>
        unfold objLookup at *
        simp only [List.map_cons, hb]
        rw [List.find?_cons_of_neg _ (by simpa using hk),
          List.find?_cons_of_neg _ (by simpa using hk)]
        exact ih k

theorem objLookup_filter_merge {W : Type} (a : List (String × W)) :
    ∀ (b : List (String × W)) (k : String),
      objLookup (b.filter (fun p => (objLookup a p.1).isNone)) k =
      (match objLookup a k with
       | some _ => none
       | none => objLookup b k) := by
  intro b
  induction b with
  | nil =>
    intro k
    cases objLookup a k <;> rfl
  | cons p b' ih =>
    intro k
    by_cases hk : p.1 = k
    · cases ha : objLookup a k with
      | some w =>
        have hap : (objLookup a p.1).isNone = false := by
          rw [hk, ha]
          rfl
        rw [List.filter_cons_of_neg (by simp [hap])]
        rw [ih k, ha]
      | none =>
        have hap : (objLookup a p.1).isNone = true := by
          rw [hk, ha]
          rfl
        rw [List.filter_cons_of_pos (by simp [hap])]
        unfold objLookup
        rw [List.find?_cons_of_pos _ (by simpa using hk),
          List.find?_cons_of_pos _ (by simpa using hk)]
    · cases hap : (objLookup a p.1).isNone with
      | true =>
        rw [List.filter_cons_of_pos (by simp [hap])]
        have : objLookup (p :: b'.filter
            (fun p2 => (objLookup a p2.1).isNone)) k =
            objLookup (b'.filter (fun p2 => (objLookup a p2.1).isNone)) k := by
          unfold objLookup
          rw [List.find?_cons_of_neg _ (by simpa using hk)]
        rw [this, ih k]
        have : objLookup (p :: b') k = objLookup b' k := by
          unfold objLookup
          rw [List.find?_cons_of_neg _ (by simpa using hk)]
        rw [this]
      | false =>
        rw [List.filter_cons_of_neg (by simp [hap])]
        rw [ih k]
        have : objLookup (p :: b') k = objLookup b' k := by
          unfold objLookup
          rw [List.find?_cons_of_neg _ (by simpa using hk)]
        rw [this]

theorem map_or_snd {W : Type} (x y : Option (String × W)) :
    Option.map (fun p => p.2) (x.or y) =
      (Option.map (fun p => p.2) x).or (Option.map (fun p => p.2) y) := by
  cases x <;> rfl

theorem objLookup_spreadMerge {W : Type} (a b : List (String × W))
    (k : String) :
    objLookup (spreadMerge a b) k = (objLookup b k).or (objLookup a k) := by
  have h1 := objLookup_map_merge b a k
  have h2 := objLookup_filter_merge a b k
  unfold spreadMerge
  unfold objLookup at h1 h2 ⊢
  rw [List.find?_append, map_or_snd, h1, h2]
  cases List.find? (fun p => p.1 == k) a <;>
    cases List.find? (fun p => p.1 == k) b <;> rfl

theorem SMset_frame {V : Type} (env : LSEnv V) (key : String) (v : V)
    (k2 : String) (hne : k2 ≠ key) :
    (SMset env key v).2.items k2 = env.items k2 := by
  by_cases hser : env.stringifyFails v
  · rw [SMset_fail env key v (Or.inl hser)]
  · rw [Bool.not_eq_true] at hser
    by_cases hquota : env.setItemThrows
    · rw [SMset_fail env key v (Or.inr hquota)]
    · rw [Bool.not_eq_true] at hquota
      rw [SMset_ok env key v hser hquota]
      dsimp only
      rw [if_neg hne]

/-- **C10** — Preferences partial-update frame: with a stored preferences
record, `updatePreferences` returns the spread merge, in which every key
present in the partial takes the partial's value and every key absent from
it keeps its stored value; on a successful write the merge is what is
stored, and no other store key is modified by the call. -/
theorem updatePreferences_frame {W : Type} (env : LSEnv (List (String × W)))
    (cur newPreferences : List (String × W)) (k : String)
    (hget : env.getItemThrows = false)
    (hstored : env.items keyUserPreferences = some (.good cur)) :
    objLookup (updatePreferences env newPreferences).1 k =
      (objLookup newPreferences k).or (objLookup cur k) ∧
    (env.stringifyFails (spreadMerge cur newPreferences) = false →
      env.setItemThrows = false →
      (updatePreferences env newPreferences).2.items keyUserPreferences =
        some (.good (updatePreferences env newPreferences).1)) ∧
    ∀ k2, k2 ≠ keyUserPreferences →
      (updatePreferences env newPreferences).2.items k2 = env.items k2 := by
  have hpref : getPreferences env = cur := by
    unfold getPreferences SMget getBody rawGetItem
    rw [hget, hstored]
    rfl
  have hup : updatePreferences env newPreferences =
      (spreadMerge cur newPreferences,
        (SMset env keyUserPreferences (spreadMerge cur newPreferences)).2) := by
    unfold updatePreferences
    dsimp only
    rw [hpref]
  refine ⟨?_, ?_, ?_⟩
  · rw [hup]
    exact objLookup_spreadMerge cur newPreferences k
  · intro hser hquota
    rw [hup]
    dsimp only
    rw [SMset_ok env keyUserPreferences _ hser hquota]
    dsimp only
    rw [if_pos rfl]
  · intro k2 hk2
    rw [hup]
    exact SMset_frame env keyUserPreferences _ k2 hk2

/-- A store with a preferences record `theme = 1`, `fontSize = 2` and
nothing failing, used to instantiate `updatePreferences_frame`. -/
def envC10 : LSEnv (List (String × Nat)) :=
  { items := fun k =>
      if k = keyUserPreferences then some (.good [("theme", 1), ("fontSize", 2)])
      else none
    getItemThrows := false
    setItemThrows := false
    stringifyFails := fun _ => false }

/-- Concrete instance of `updatePreferences_frame`: updating
`fontSize = 3` keeps `theme = 1`, overrides `fontSize`, stores the merge,
and leaves the history key untouched. -/
theorem updatePreferences_frame_witness :
    objLookup (updatePreferences envC10 [("fontSize", 3)]).1 "theme" =
      some 1 ∧
    objLookup (updatePreferences envC10 [("fontSize", 3)]).1 "fontSize" =
      some 3 ∧
    (updatePreferences envC10 [("fontSize", 3)]).2.items keyUserPreferences =
      some (.good (updatePreferences envC10 [("fontSize", 3)]).1) ∧
    (updatePreferences envC10 [("fontSize", 3)]).2.items keyReadingHistory =
      envC10.items keyReadingHistory := by
  have h1 := updatePreferences_frame envC10 [("theme", 1), ("fontSize", 2)]
    [("fontSize", 3)] "theme" rfl rfl
  have h2 := updatePreferences_frame envC10 [("theme", 1), ("fontSize", 2)]
    [("fontSize", 3)] "fontSize" rfl rfl
  refine ⟨?_, ?_, h1.2.1 rfl rfl, h1.2.2 keyReadingHistory (by decide)⟩
  · rw [h1.1]
    decide
  · rw [h2.1]
    decide

/-! ## Image load scheduling

`displayChapterImages(images, container)` splits the URL list into
`images.slice(0, 10)` (created with `loading='eager'`,
`fetchPriority='high'`, `src` set at once) and `images.slice(10)` handed to
`preloadRemainingImages` (also `loading='eager'` with `src` set at once,
but `fetchPriority='low'` and placeholder text). The `onload` handler adds
the class `loaded`; `onerror` on a preloaded image adds the class `error`
and sets the text `Failed to load page N`, while `onerror` on a first-batch
image only logs a warning and changes nothing on the element. -/

/-- Which creation path built the element. -/
inductive Batch where
  | first
  | preload
deriving DecidableEq, Repr

/-- The `img` element state the reader page manipulates. -/
structure ImgElem where
  src : String
  alt : String
  batch : Batch
  ordinal : Nat
  loadingAttr : String
  fetchPriority : String
  classes : List String
  textContent : String
deriving DecidableEq, Repr

/-- An element of the first batch (`firstImages.forEach`). -/
def mkFirstImg (index : Nat) (imageUrl : String) : ImgElem :=
  { src := imageUrl
    alt := "Chapter page " ++ toString (index + 1)
    batch := .first
    ordinal := index + 1
    loadingAttr := "eager"
    fetchPriority := "high"
    classes := ["reader-image", "immediate-load"]
    textContent := "" }

/-- An element built by `preloadRemainingImages` (`images.forEach`). -/
def mkPreloadImg (index : Nat) (imageUrl : String) : ImgElem :=
  { src := imageUrl
    alt := "Chapter page " ++ toString (index + 11)
    batch := .preload
    ordinal := index + 11
    loadingAttr := "eager"
    fetchPriority := "low"
    classes := ["reader-image", "preloaded-image"]
    textContent := "Preloading page " ++ toString (index + 11) ++ "..." }

/-- The `forEach` loop of `displayChapterImages` over the first batch. -/
def buildFirstImgs : Nat → List String → List ImgElem
  | _, [] => []
  | index, imageUrl :: rest =>
    mkFirstImg index imageUrl :: buildFirstImgs (index + 1) rest

/-- `preloadRemainingImages`: every remaining URL gets an eager,
low-priority element with its `src` set immediately. -/
def preloadRemainingImages : Nat → List String → List ImgElem
  | _, [] => []
  | index, imageUrl :: rest =>
    mkPreloadImg index imageUrl :: preloadRemainingImages (index + 1) rest

/-- `displayChapterImages`: empty input shows an empty state (no
elements); otherwise the first ten URLs load eagerly at high priority and
the remainder preload eagerly at low priority. -/
def displayChapterImages (images : List String) : List ImgElem :=
  if images.length = 0 then []
  else
    buildFirstImgs 0 (images.take 10) ++
    preloadRemainingImages 0 (images.drop 10)

/-- A load outcome event on one element. -/
inductive LoadEvent where
  | onload
  | onerror
deriving DecidableEq, Repr

/-- The `onload` / `onerror` handlers attached at creation. -/
def handleEvent (e : LoadEvent) (img : ImgElem) : ImgElem :=
  match img.batch, e with
  | .first, .onload => { img with classes := img.classes ++ ["loaded"] }
  | .first, .onerror => img
  | .preload, .onload =>
    { img with
      classes := img.classes ++ ["loaded"]
      textContent := "" }
  | .preload, .onerror =>
    { img with
      classes := img.classes ++ ["error"]
      textContent := "Failed to load page " ++ toString img.ordinal }

/-- Fire one element's event: the handlers close over their own element
only, so only position `i` changes. -/
def fireEventAt : List ImgElem → Nat → LoadEvent → List ImgElem
  | [], _, _ => []
  | img :: rest, 0, e => handleEvent e img :: rest
  | img :: rest, i + 1, e => img :: fireEventAt rest i e

/-- The failed state, as the code records it: the `error` class. -/
def isFailed (img : ImgElem) : Bool := img.classes.contains "error"

/-! Supporting lemmas for the image scheduler. -/

theorem buildFirstImgs_src : ∀ (l : List String) (i : Nat),
    (buildFirstImgs i l).map (fun img => img.src) = l := by
  intro l
  induction l with
  | nil => intro i; rfl
  | cons a t ih => intro i; simp [buildFirstImgs, mkFirstImg, ih]

theorem preloadRemainingImages_src : ∀ (l : List String) (i : Nat),
    (preloadRemainingImages i l).map (fun img => img.src) = l := by
  intro l
  induction l with
  | nil => intro i; rfl
  | cons a t ih => intro i; simp [preloadRemainingImages, mkPreloadImg, ih]

theorem buildFirstImgs_all_high : ∀ (l : List String) (i : Nat),
    ∀ img ∈ buildFirstImgs i l,
      img.fetchPriority = "high" ∧ img.loadingAttr = "eager" := by
  intro l
  induction l with
  | nil => intro i img h; simp [buildFirstImgs] at h
  | cons a t ih =>
    intro i img h
    rcases List.mem_cons.1 h with rfl | h'
    · exact ⟨rfl, rfl⟩
    · exact ih (i + 1) img h'

theorem preloadRemainingImages_all_low : ∀ (l : List String) (i : Nat),
    ∀ img ∈ preloadRemainingImages i l,
      img.fetchPriority = "low" ∧ img.loadingAttr = "eager" := by
  intro l
  induction l with
  | nil => intro i img h; simp [preloadRemainingImages] at h
  | cons a t ih =>
    intro i img h
    rcases List.mem_cons.1 h with rfl | h'
    · exact ⟨rfl, rfl⟩
    · exact ih (i + 1) img h'

theorem fireEventAt_other : ∀ (l : List ImgElem) (i j : Nat) (e : LoadEvent),
    j ≠ i → (fireEventAt l i e).get? j = l.get? j := by
  intro l
  induction l with
  | nil => intro i j e _; cases i <;> rfl
  | cons img rest ih =>
    intro i j e hne
    cases i with
    | zero =>
      cases j with
      | zero => exact absurd rfl hne
      | succ j2 => rfl
    | succ i2 =>
      cases j with
      | zero => rfl
      | succ j2 => exact ih i2 j2 e (fun h => hne (by rw [h]))

/-- **C7 counterexample** — for a single-page chapter the only task is in
the first (high-priority) batch, and its `onerror` handler only logs: the
element is left unchanged, with no failed state and no inline placeholder,
contradicting the claim that any failing task is put in the failed state
with a placeholder for its ordinal. -/
theorem image_failure_counterexample :
    displayChapterImages ["u1"] = [mkFirstImg 0 "u1"] ∧
    (mkFirstImg 0 "u1").fetchPriority = "high" ∧
    handleEvent .onerror (mkFirstImg 0 "u1") = mkFirstImg 0 "u1" ∧
    isFailed (handleEvent .onerror (mkFirstImg 0 "u1")) = false ∧
    (handleEvent .onerror (mkFirstImg 0 "u1")).textContent = "" := by
  refine ⟨by decide, rfl, rfl, by decide, rfl⟩

/-- **C7 amended** — Image load scheduling: exactly `min(N,10)` tasks are
high priority and the remaining `N - min(N,10)` low priority, and all `N`
have their `src` set immediately with `loading='eager'` (the low-priority
remainder is not deferred); an event on one task leaves every other task
unchanged; a failing low-priority (preload) task alone is marked failed,
with an inline placeholder for its ordinal, keeps its `src` (no automatic
retry), and stays failed under any later event; a failing first-batch task
is only logged — its element is left entirely unchanged. -/
theorem image_scheduling_amended (images : List String) (i : Nat)
    (e : LoadEvent) :
    ((displayChapterImages images).filter
      (fun img => img.fetchPriority == "high")).length = min images.length 10 ∧
    ((displayChapterImages images).filter
      (fun img => img.fetchPriority == "low")).length = images.length - 10 ∧
    (displayChapterImages images).map (fun img => img.src) = images ∧
    (∀ img ∈ displayChapterImages images, img.loadingAttr = "eager") ∧
    (∀ j, j ≠ i →
      (fireEventAt (displayChapterImages images) i e).get? j =
        (displayChapterImages images).get? j) ∧
    (∀ img : ImgElem, img.batch = .preload →
      isFailed (handleEvent .onerror img) = true ∧
      (handleEvent .onerror img).textContent =
        "Failed to load page " ++ toString img.ordinal ∧
      (handleEvent .onerror img).src = img.src ∧
      ∀ e2, isFailed (handleEvent e2 (handleEvent .onerror img)) = true) ∧
    (∀ img : ImgElem, img.batch = .first → handleEvent .onerror img = img) := by
  have hdisp : displayChapterImages images =
      buildFirstImgs 0 (images.take 10) ++
      preloadRemainingImages 0 (images.drop 10) := by
    unfold displayChapterImages
    by_cases hlen : images.length = 0
    · rw [if_pos hlen]
      have : images = [] := List.length_eq_zero.1 hlen
      subst this
      rfl
    · rw [if_neg hlen]
  have hfilterHigh :
      (buildFirstImgs 0 (images.take 10)).filter
        (fun img => img.fetchPriority == "high") =
      buildFirstImgs 0 (images.take 10) :=
    List.filter_eq_self.2 (fun img h => by
      rw [(buildFirstImgs_all_high (images.take 10) 0 img h).1]
      rfl)
  have hfilterHighP :
      (preloadRemainingImages 0 (images.drop 10)).filter
        (fun img => img.fetchPriority == "high") = [] :=
    List.filter_eq_nil_iff.2 (fun img h => by
      rw [(preloadRemainingImages_all_low (images.drop 10) 0 img h).1]
      decide)
  have hfilterLow :
      (preloadRemainingImages 0 (images.drop 10)).filter
        (fun img => img.fetchPriority == "low") =
      preloadRemainingImages 0 (images.drop 10) :=
    List.filter_eq_self.2 (fun img h => by
      rw [(preloadRemainingImages_all_low (images.drop 10) 0 img h).1]
      rfl)
  have hfilterLowF :
      (buildFirstImgs 0 (images.take 10)).filter
        (fun img => img.fetchPriority == "low") = [] :=
    List.filter_eq_nil_iff.2 (fun img h => by
      rw [(buildFirstImgs_all_high (images.take 10) 0 img h).1]
      decide)
  have hlenF : (buildFirstImgs 0 (images.take 10)).length =
      (images.take 10).length := by
    have := congrArg List.length (buildFirstImgs_src (images.take 10) 0)
    simpa using this
  have hlenP : (preloadRemainingImages 0 (images.drop 10)).length =
      (images.drop 10).length := by
    have := congrArg List.length (preloadRemainingImages_src (images.drop 10) 0)
    simpa using this
  refine ⟨?_, ?_, ?_, ?_, ?_, ?_, ?_⟩
  · rw [hdisp, List.filter_append, hfilterHigh, hfilterHighP,
      List.append_nil, hlenF, List.length_take]
    omega
  · rw [hdisp, List.filter_append, hfilterLowF, hfilterLow,
      List.nil_append, hlenP, List.length_drop]
  · rw [hdisp, List.map_append, buildFirstImgs_src,
      preloadRemainingImages_src, List.take_append_drop]
  · intro img h
    rw [hdisp] at h
    rcases List.mem_append.1 h with h' | h'
    · exact (buildFirstImgs_all_high (images.take 10) 0 img h').2
    · exact (preloadRemainingImages_all_low (images.drop 10) 0 img h').2
  · intro j hj
    exact fireEventAt_other (displayChapterImages images) i j e hj
  · intro img hb
    obtain ⟨src, alt, batch, ordinal, loadingAttr, fetchPriority, classes,
      textContent⟩ := img
    dsimp only at hb
    subst hb
    refine ⟨?_, rfl, rfl, ?_⟩
    · unfold handleEvent isFailed
      dsimp only
      simp [List.contains]
    · intro e2
      cases e2 with
      | onload =>
        unfold handleEvent isFailed
        dsimp only
        simp [List.contains]
      | onerror =>
        unfold handleEvent isFailed
        dsimp only
        simp [List.contains]
  · intro img hb
    obtain ⟨src, alt, batch, ordinal, loadingAttr, fetchPriority, classes,
      textContent⟩ := img
    dsimp only at hb
    subst hb
    rfl

/-- Concrete instance of `image_scheduling_amended`: a 12-page chapter gets
10 high-priority and 2 low-priority tasks, an error on task 0 leaves task 5
untouched, a preload task fails with its placeholder, and a first-batch
task is unchanged by `onerror`. -/
theorem image_scheduling_amended_witness :
    ((displayChapterImages
      ["u1", "u2", "u3", "u4", "u5", "u6", "u7", "u8", "u9", "u10", "u11", "u12"]).filter
      (fun img => img.fetchPriority == "high")).length = 10 ∧
    ((displayChapterImages
      ["u1", "u2", "u3", "u4", "u5", "u6", "u7", "u8", "u9", "u10", "u11", "u12"]).filter
      (fun img => img.fetchPriority == "low")).length = 2 ∧
    (fireEventAt (displayChapterImages
      ["u1", "u2", "u3", "u4", "u5", "u6", "u7", "u8", "u9", "u10", "u11", "u12"])
      0 .onerror).get? 5 =
      (displayChapterImages
        ["u1", "u2", "u3", "u4", "u5", "u6", "u7", "u8", "u9", "u10", "u11", "u12"]).get? 5 ∧
    isFailed (handleEvent .onerror (mkPreloadImg 0 "u11")) = true ∧
    (handleEvent .onerror (mkPreloadImg 0 "u11")).textContent =
      "Failed to load page 11" ∧
    handleEvent .onerror (mkFirstImg 2 "u3") = mkFirstImg 2 "u3" := by
  have h := image_scheduling_amended
    ["u1", "u2", "u3", "u4", "u5", "u6", "u7", "u8", "u9", "u10", "u11", "u12"]
    0 .onerror
  refine ⟨h.1.trans (by decide), h.2.1.trans (by decide),
    h.2.2.2.2.1 5 (by decide),
    (h.2.2.2.2.2.1 (mkPreloadImg 0 "u11") rfl).1, ?_,
    h.2.2.2.2.2.2 (mkFirstImg 2 "u3") rfl⟩
  have h2 := (h.2.2.2.2.2.1 (mkPreloadImg 0 "u11") rfl).2.1
  rw [h2]
  rfl

/-! ## Homepage quick-load / full-load display (`loadHomepageContent`)

The quick path displays `quickResult.data.slice(0, 10)` when the quick
request returned a non-empty list. After the full aggregate arrives,
`displayEnhancedMangaGrid` (which replaces the grid contents wholesale)
is called with `result.data.slice(0, 20)` when
`!quickResult || quickResult.data.length < 20`; with a quick result of at
least 20 entries the quick display is kept; an empty full result shows the
error state, clearing the grid. -/

/-- The two display phases of `loadHomepageContent` for the updates grid:
the list shown after the quick phase and the list shown after the full
phase. `none` models a quick request that failed or threw. -/
def homepageDisplay {E : Type} (quickResult : Option (List E))
    (result : List E) : List E × List E :=
  let afterQuick :=
    match quickResult with
    | some qd => if 0 < qd.length then qd.take 10 else []
    | none => []
  let afterFull :=
    if 0 < result.length then
      match quickResult with
      | none => result.take 20
      | some qd => if qd.length < 20 then result.take 20 else afterQuick
    else []
  (afterQuick, afterFull)

/-- **C9 counterexample** — the supersede test compares the quick length
against 20, not against the full result: a quick result of 15 entries
(displaying 10) followed by a full aggregate of only 5 entries replaces the
grid with 5 entries — the number of displayed entries decreases, and the
smaller full result supersedes the larger displayed quick result. -/
theorem quick_path_counterexample :
    (homepageDisplay (some (List.range 15)) (List.range 5)).1.length = 10 ∧
    (homepageDisplay (some (List.range 15)) (List.range 5)).2.length = 5 ∧
    (homepageDisplay (some (List.range 15)) (List.range 5)).2.length <
      (homepageDisplay (some (List.range 15)) (List.range 5)).1.length := by
  refine ⟨by decide, by decide, by decide⟩

/-- **C9 amended** — Quick-path supersession, as the code implements it:
with a non-empty full result, the full aggregate replaces the quick
display exactly when the quick result is absent or has fewer than 20
entries (regardless of the full result's size), and the quick display is
kept when the quick result has at least 20 entries; an empty full result
clears the display; the displayed count does not decrease only under the
additional assumption that the full result has at least as many entries as
the quick display — without it the count can drop. -/
theorem quick_path_amended {E : Type} (quickResult : Option (List E))
    (result : List E) :
    (0 < result.length → ∀ qd, quickResult = some qd → 20 ≤ qd.length →
      (homepageDisplay quickResult result).2 =
        (homepageDisplay quickResult result).1) ∧
    (0 < result.length →
      (quickResult = none ∨ ∃ qd, quickResult = some qd ∧ qd.length < 20) →
      (homepageDisplay quickResult result).2 = result.take 20) ∧
    (result.length = 0 → (homepageDisplay quickResult result).2 = []) ∧
    (0 < result.length →
      (homepageDisplay quickResult result).1.length ≤ result.length →
      (homepageDisplay quickResult result).1.length ≤
        (homepageDisplay quickResult result).2.length) := by
  refine ⟨?_, ?_, ?_, ?_⟩
  · intro hr qd hq h20
    subst hq
    unfold homepageDisplay
    dsimp only
    rw [if_pos hr, if_neg (by omega : ¬qd.length < 20)]
  · intro hr hcase
    rcases hcase with rfl | ⟨qd, rfl, hlt⟩
    · unfold homepageDisplay
      dsimp only
      rw [if_pos hr]
    · unfold homepageDisplay
      dsimp only
      rw [if_pos hr, if_pos hlt]
  · intro h0
    unfold homepageDisplay
    dsimp only
    rw [if_neg (by omega)]
  · intro hr hle
    cases quickResult with
    | none =>
      unfold homepageDisplay at *
      dsimp only at *
      simp
    | some qd =>
      unfold homepageDisplay at *
      dsimp only at *
      by_cases h20 : qd.length < 20
      · rw [if_pos hr, if_pos h20]
        by_cases hq : 0 < qd.length
        · rw [if_pos hq] at hle ⊢
          rw [List.length_take] at hle ⊢
          rw [List.length_take]
          omega
        · rw [if_neg hq] at hle ⊢
          simp
      · rw [if_pos hr, if_neg h20]

/-- Concrete instance of `quick_path_amended`: a 25-entry quick result is
kept over a 30-entry full result; a 5-entry quick result is superseded by
the full 30; and with the full result at least as large as the displayed
quick list the displayed count does not decrease. -/
theorem quick_path_amended_witness :
    (homepageDisplay (some (List.range 25)) (List.range 30)).2 =
      (homepageDisplay (some (List.range 25)) (List.range 30)).1 ∧
    (homepageDisplay (some (List.range 5)) (List.range 30)).2 =
      (List.range 30).take 20 ∧
    (homepageDisplay (some (List.range 15)) (List.range 12)).1.length ≤
      (homepageDisplay (some (List.range 15)) (List.range 12)).2.length := by
  refine ⟨(quick_path_amended (some (List.range 25)) (List.range 30)).1
      (by decide) (List.range 25) rfl (by decide),
    (quick_path_amended (some (List.range 5)) (List.range 30)).2.1
      (by decide) (Or.inr ⟨List.range 5, rfl, by decide⟩),
    (quick_path_amended (some (List.range 15)) (List.range 12)).2.2.2
      (by decide) (by decide)⟩

end Comik
